import Mathlib

/-
Verification of the kvitta-api receipt lifecycle engine.

This file shallowly embeds the financial core of the repository:
  app/models/receipt.py, app/models/ledger.py   (data model)
  app/utils/receipt_validation.py               (validators and totals)
  app/repositories/receipt_repo.py              (settle summary, lifecycle)
  app/repositories/ledger_repo.py               (ledger derivation, settlement)

Conventions of the embedding:
  - Monetary fields are ℤ (Python int cents).
  - Python floats (item.quantity, split.share_quantity) are modelled as ℚ;
    every concrete input used below is a small dyadic or integer rational,
    on which Python double arithmetic is exact, so evaluations agree with
    the source.
  - Python `int(x)` truncates toward zero: `pyTrunc`.
  - Python `//` and `%` with a positive divisor are floor division and a
    non-negative remainder, which is exactly Lean `Int./` and `Int.%`.
  - Python dicts keyed by str(user_id) are association lists (`Dict`)
    with first-insertion order preserved, as in CPython.
  - MongoDB documents are structures; BSON values that may be either an
    ObjectId or a string are `BsonVal` (BSON equality distinguishes the
    two types, which matters for `delete_entries_for_receipt`).
  - Raised exceptions are `Except`/result values; datetime fields carry
    no financial content and are omitted (settled_at is kept as a flag).
-/

set_option maxHeartbeats 1600000

namespace Kvitta

/-! ## Python dict model -/

/-- Association-list model of a Python `dict[str, int]`. -/
abbrev Dict := List (String × ℤ)

/-- `d.get(k, 0)`. -/
def dget (d : Dict) (k : String) : ℤ :=
  ((d.find? (fun kv => kv.1 = k)).map Prod.snd).getD 0

/-- `d[k] = v`: overwrite in place if present (keeping insertion order), else append. -/
def dset : Dict → String → ℤ → Dict
  | [], k, v => [(k, v)]
  | kv :: rest, k, v => if kv.1 = k then (k, v) :: rest else kv :: dset rest k v

/-- `d[k] = d.get(k, 0) + x`, the accumulation idiom used throughout the source. -/
def dadd (d : Dict) (k : String) (x : ℤ) : Dict :=
  dset d k (dget d k + x)

/-- Sum of all values of the dict. -/
def dsum (d : Dict) : ℤ := (d.map Prod.snd).sum

/-! ## Data model (app/models/receipt.py, app/models/ledger.py) -/

/-- Embedded participant (`Participant`); `joined_at` omitted. -/
structure Participant where
  user_id : String
  role : String := "member"
deriving DecidableEq

/-- Embedded split (`Split`): `share_quantity` is a Python float, modelled as ℚ. -/
structure Split where
  user_id : String
  share_quantity : ℚ
deriving DecidableEq

/-- Embedded item (`Item`). -/
structure Item where
  item_id : String := ""
  name : String := ""
  unit_price_cents : ℤ
  quantity : ℚ
  taxable : Bool := true
  splits : List Split := []
deriving DecidableEq

/-- Embedded charge (`Charge`). -/
structure Charge where
  charge_id : String := ""
  name : String := ""
  unit_price_cents : ℤ
  taxable : Bool := false
  splits : List Split := []
deriving DecidableEq

/-- Embedded payment (`Payment`). -/
structure Payment where
  user_id : String
  amount_paid_cents : ℤ
deriving DecidableEq

/-- The `Receipt` pydantic model. Its complete field list is
`owner_id, folder_id, title, description, comments, status, participants,
items, charges, payments, subtotal_cents, total_cents, version, created_by,
updated_by, is_deleted` plus `id/created_at/updated_at` from `MongoModel`.
It defines NO `tax_cents` or `tip_cents` field, and its config does not
allow extra attributes, so reading `receipt.tax_cents` raises
`AttributeError` (see `calculate_user_liabilities`). `status` is one of
the `ReceiptStatus` strings "draft" / "finalized" / "settled". -/
structure Receipt where
  id : String
  owner_id : String
  title : String := ""
  description : String := ""
  comments : String := ""
  folder_id : String := ""
  status : String := "draft"
  participants : List Participant := []
  items : List Item := []
  charges : List Charge := []
  payments : List Payment := []
  subtotal_cents : ℤ := 0
  total_cents : ℤ := 0
  version : ℤ := 1
  is_deleted : Bool := false
deriving DecidableEq

/-- A BSON value that is either an ObjectId or a string. BSON equality is
typed: `oid s ≠ str s`. -/
inductive BsonVal where
  | oid : String → BsonVal
  | str : String → BsonVal
deriving DecidableEq

/-- The `LedgerEntry` pydantic model. `receipt_id` is declared `str` and is
always stored as the string form of the receipt id. -/
structure LedgerEntry where
  id : String := ""
  receipt_id : BsonVal
  debtor_id : String
  creditor_id : String
  amount_cents : ℤ
  settled_amount_cents : ℤ := 0
  status : String := "pending"
  description : String := ""
  is_deleted : Bool := false
deriving DecidableEq

/-- One element of a receipt's `settle_summary` (a plain dict in the source);
`settled_at` is modelled by the flag `settled_at_set` (None vs a timestamp). -/
structure SummaryEntry where
  user_id : String
  amount_cents : ℤ
  paid_cents : ℤ
  net_cents : ℤ
  settled_amount_cents : ℤ
  is_settled : Bool
  settled_at_set : Bool
  status : String
deriving DecidableEq

/-- Exceptions raised by the repositories: `ReceiptValidationError msg`, or a
Python `AttributeError` for a field the model does not define. -/
inductive RepoError where
  | validation : String → RepoError
  | attributeMissing : String → RepoError
deriving DecidableEq

/-! ## Money helpers (app/utils/receipt_validation.py) -/

/-- Python `int(x)` on a float/rational: truncation toward zero. -/
def pyTrunc (q : ℚ) : ℤ := if 0 ≤ q then ⌊q⌋ else ⌈q⌉

/-- `calculate_subtotal`: `Σ int(item.unit_price_cents * item.quantity)`. -/
def calculate_subtotal (items : List Item) : ℤ :=
  (items.map (fun item => pyTrunc ((item.unit_price_cents : ℚ) * item.quantity))).sum

/-- `calculate_charges_total`: `Σ charge.unit_price_cents`. -/
def calculate_charges_total (charges : List Charge) : ℤ :=
  (charges.map Charge.unit_price_cents).sum

/-- `calculate_total`: subtotal plus charges. -/
def calculate_total (subtotal_cents : ℤ) (charges : List Charge) : ℤ :=
  subtotal_cents + calculate_charges_total charges

/-- `validate_items`: non-negative price, positive quantity, split sum within
1e-4 of quantity when splits are non-empty, positive split shares. -/
def validate_items : List Item → Except RepoError Unit
  | [] => .ok ()
  | item :: rest =>
    if item.unit_price_cents < 0 then .error (.validation "negative price")
    else if item.quantity ≤ 0 then .error (.validation "non-positive quantity")
    else if item.splits ≠ [] ∧
        ¬ |(item.splits.map Split.share_quantity).sum - item.quantity| ≤ 1 / 10000 then
      .error (.validation "split sum does not equal quantity")
    else if item.splits.any (fun split => split.share_quantity ≤ 0) then
      .error (.validation "non-positive split share")
    else validate_items rest

/-- `validate_charges`: non-negative price, split sum within 1e-4 of 1.0 when
splits are non-empty, positive split shares. -/
def validate_charges : List Charge → Except RepoError Unit
  | [] => .ok ()
  | charge :: rest =>
    if charge.unit_price_cents < 0 then .error (.validation "negative price")
    else if charge.splits ≠ [] ∧
        ¬ |(charge.splits.map Split.share_quantity).sum - 1| ≤ 1 / 10000 then
      .error (.validation "split sum does not equal 1.0")
    else if charge.splits.any (fun split => split.share_quantity ≤ 0) then
      .error (.validation "non-positive split share")
    else validate_charges rest

/-- `validate_payments`: no negative amounts. -/
def validate_payments (payments : List Payment) : Except RepoError Unit :=
  if payments.any (fun payment => payment.amount_paid_cents < 0) then
    .error (.validation "negative payment amount")
  else .ok ()

/-! ## ReceiptRepository._build_settle_summary (receipt_repo.py lines 93-173) -/

/-- `liabilities = {str(p.user_id): 0 for participants}` (lines 104-106). -/
def init_liabilities (participants : List Participant) : Dict :=
  participants.foldl (fun d p => dset d p.user_id 0) []

/-- `payments_by_user[u] += payment.amount_paid_cents` (lines 108-111). -/
def payments_by_user (payments : List Payment) : Dict :=
  payments.foldl (fun d payment => dadd d payment.user_id payment.amount_paid_cents) []

/-- One iteration of the item-liability loop (lines 114-128): skip items with
no splits or zero total split quantity, otherwise add
`int(item_subtotal * share_quantity / item_split_qty)` per split. -/
def item_liabilities_step (d : Dict) (item : Item) : Dict :=
  if item.splits = [] then d
  else
    let item_subtotal : ℚ := (item.unit_price_cents : ℚ) * item.quantity
    let item_split_qty : ℚ := (item.splits.map Split.share_quantity).sum
    if item_split_qty = 0 then d
    else
      item.splits.foldl
        (fun d2 split =>
          dadd d2 split.user_id (pyTrunc (item_subtotal * (split.share_quantity / item_split_qty))))
        d

/-- One iteration of the charge-liability loop (lines 131-146): with splits,
add `int(charge.unit_price_cents * split.share_quantity)` per split (no
remainder redistribution); with no splits, divide equally over participants,
the first `remainder` participants receiving one extra cent. -/
def charge_liabilities_step (participants : List Participant) (d : Dict) (charge : Charge) : Dict :=
  if charge.splits ≠ [] then
    charge.splits.foldl
      (fun d2 split =>
        dadd d2 split.user_id (pyTrunc ((charge.unit_price_cents : ℚ) * split.share_quantity)))
      d
  else
    if 0 < participants.length then
      let per_user : ℤ := charge.unit_price_cents / (participants.length : ℤ)
      let remainder : ℤ := charge.unit_price_cents % (participants.length : ℤ)
      participants.enum.foldl
        (fun d2 ip =>
          dadd d2 ip.2.user_id (per_user + if (ip.1 : ℤ) < remainder then 1 else 0))
        d
    else d

/-- The liabilities dict computed by `_build_settle_summary` (lines 104-146). -/
def liabilities_of (participants : List Participant) (items : List Item)
    (charges : List Charge) : Dict :=
  charges.foldl (charge_liabilities_step participants)
    (items.foldl item_liabilities_step (init_liabilities participants))

/-- The per-participant row built by the summary loop (lines 148-171):
`amount = max(net, 0)`, `is_settled = (net == 0)`, `status` by sign of net. -/
def summary_row (user_id : String) (liability_cents paid_cents : ℤ) : SummaryEntry :=
  let net_cents := liability_cents - paid_cents
  { user_id := user_id
    amount_cents := max net_cents 0
    paid_cents := paid_cents
    net_cents := net_cents
    settled_amount_cents := 0
    is_settled := net_cents = 0
    settled_at_set := false
    status :=
      if net_cents < 0 then "creditor"
      else if net_cents = 0 then "settled"
      else "pending" }

/-- `_build_settle_summary` (lines 93-173): per-participant summary rows. -/
def build_settle_summary (participants : List Participant) (items : List Item)
    (charges : List Charge) (payments : List Payment) : List SummaryEntry :=
  if participants = [] then []
  else
    let liabilities := liabilities_of participants items charges
    let paid := payments_by_user payments
    participants.map (fun p =>
      summary_row p.user_id (dget liabilities p.user_id) (dget paid p.user_id))

/-! ## ReceiptRepository.update_settle_summary_from_ledger (lines 175-236)

The pure core of the reconciliation: a base summary is recomputed with
`_build_settle_summary` and then overlaid with ledger settlement progress. -/

/-- `settled_by_debtor[entry.debtor_id] += entry.settled_amount_cents` over
non-deleted entries (lines 198-204). -/
def settled_by_debtor (entries : List LedgerEntry) : Dict :=
  entries.foldl
    (fun d entry =>
      if entry.is_deleted then d else dadd d entry.debtor_id entry.settled_amount_cents)
    []

/-- The per-row overlay of lines 207-223: cap the settled amount at
`amount_cents`, then derive `is_settled`, `status` and `settled_at`. -/
def overlay_row (settled : Dict) (s : SummaryEntry) : SummaryEntry :=
  let settled_amount := min s.amount_cents (dget settled s.user_id)
  let is_settled : Bool := decide (s.amount_cents ≤ settled_amount)
  if is_settled = true ∧ 0 < s.amount_cents then
    { s with settled_amount_cents := settled_amount, is_settled := is_settled,
             status := "settled", settled_at_set := true }
  else if 0 < settled_amount then
    { s with settled_amount_cents := settled_amount, is_settled := is_settled,
             status := "partially_settled", settled_at_set := false }
  else
    { s with settled_amount_cents := settled_amount, is_settled := is_settled,
             status := "pending", settled_at_set := false }

/-- The map of line 207 applying the overlay to every summary row. -/
def overlay_summary (base : List SummaryEntry) (entries : List LedgerEntry) :
    List SummaryEntry :=
  base.map (overlay_row (settled_by_debtor entries))

/-! ## LedgerRepository (app/repositories/ledger_repo.py) -/

/-- `sum(sum(s.share_quantity for s in item.splits) if item.splits else 0
for item in receipt.items)` (lines 227-230). -/
def total_split_qty (items : List Item) : ℚ :=
  (items.map (fun item =>
    if item.splits = [] then 0 else (item.splits.map Split.share_quantity).sum)).sum

/-- `_calculate_user_liabilities` (lines 211-268). After the early returns the
function evaluates `receipt.tax_cents` (line 254); the `Receipt` model defines
no such field and forbids extra attributes, so Python raises `AttributeError`
there, before any tax/tip allocation. The item loop preceding line 254 only
mutates the local dict that the exception then discards. -/
def calculate_user_liabilities (receipt : Receipt) : Except RepoError Dict :=
  let liabilities := init_liabilities receipt.participants
  if receipt.items = [] ∨ receipt.subtotal_cents ≤ 0 then .ok liabilities
  else if total_split_qty receipt.items = 0 then .ok liabilities
  else .error (.attributeMissing "tax_cents")

/-- `_get_user_payments` (lines 270-276). -/
def get_user_payments (receipt : Receipt) : Dict :=
  payments_by_user receipt.payments

/-- `_calculate_net_positions` (lines 278-298): `liability - payment` over the
union of both key sets. CPython iterates that union (a set) in an unspecified
hash order; the embedding fixes one enumeration (liability keys first, then
payment-only keys). Every theorem stated below about the result is independent
of the enumeration order. -/
def calculate_net_positions (liabilities payments : Dict) : Dict :=
  let keys :=
    (liabilities.map Prod.fst) ++
      ((payments.map Prod.fst).filter (fun k => ¬ (liabilities.map Prod.fst).contains k))
  keys.map (fun k => (k, dget liabilities k - dget payments k))

/-- The `LedgerEntry(...)` constructed at lines 333-341: `receipt_id` is stored
as `str(receipt_id)`. -/
def mk_pending_entry (receipt_id debtor_id creditor_id : String) (amount : ℤ) : LedgerEntry :=
  { receipt_id := BsonVal.str receipt_id
    debtor_id := debtor_id
    creditor_id := creditor_id
    amount_cents := amount
    settled_amount_cents := 0
    status := "pending"
    description := "Settlement for receipt" }

/-- The greedy two-cursor loop of `_match_debtors_creditors` (lines 322-358).
Each iteration matches `min` of the two head amounts, emits an entry if that
is positive, and advances whichever side reached zero. Because `m` is the
minimum, `da - m = 0` or `ca - m = 0` always holds, so the two-way branch
below covers every Python iteration: when `da - m ≠ 0` the debtor head is
replaced by its remainder and the creditor cursor advances. -/
def match_loop (receipt_id : String) :
    List (String × ℤ) → List (String × ℤ) → List LedgerEntry
  | [], _ => []
  | _ :: _, [] => []
  | (d, da) :: ds, (c, ca) :: cs =>
    let m := min da ca
    let emitted := if 0 < m then [mk_pending_entry receipt_id d c m] else []
    if da - m = 0 then
      if ca - m = 0 then emitted ++ match_loop receipt_id ds cs
      else emitted ++ match_loop receipt_id ds ((c, ca - m) :: cs)
    else
      emitted ++ match_loop receipt_id ((d, da - m) :: ds) cs
termination_by ds cs => ds.length + cs.length
decreasing_by all_goals (simp only [List.length_cons]; omega)

/-- `_match_debtors_creditors` (lines 300-358): partition the net positions
into debtors (net > 0) and creditors (net < 0, negated), then run the greedy
matching loop. -/
def match_debtors_creditors (receipt_id : String) (net_positions : Dict) :
    List LedgerEntry :=
  let debtors := net_positions.filter (fun ua => decide (0 < ua.2))
  let creditors :=
    (net_positions.filter (fun ua => decide (ua.2 < 0))).map (fun ua => (ua.1, -ua.2))
  match_loop receipt_id debtors creditors

/-- `insert_ledger_entries` (lines 29-80): guard status and total, then
liabilities → payments → net positions → matching. The DB insert happens after
all of this, so any raised error precedes any insertion. -/
def insert_ledger_entries (receipt : Receipt) : Except RepoError (List LedgerEntry) :=
  if receipt.status ≠ "finalized" then
    .error (.validation "Can only create ledger for finalized receipts")
  else if receipt.total_cents ≤ 0 then
    .error (.validation "Receipt total must be positive to finalize")
  else
    match calculate_user_liabilities receipt with
    | .error e => .error e
    | .ok user_liabilities =>
      let user_payments := get_user_payments receipt
      let net_positions := calculate_net_positions user_liabilities user_payments
      .ok (match_debtors_creditors receipt.id net_positions)

/-- Result of `settle_entry`: Python returns `None` when the entry is missing,
raises `ReceiptValidationError` on an out-of-range amount, and otherwise
returns the updated entry. There is no deleted-entry check in the source. -/
inductive SettleResult where
  | notFound : SettleResult
  | invalidAmount : SettleResult
  | ok : LedgerEntry → SettleResult
deriving DecidableEq

/-- `find_one({"_id": oid})`: the lookup does not filter on `is_deleted`. -/
def find_entry (entries : List LedgerEntry) (entry_id : String) : Option LedgerEntry :=
  entries.find? (fun e => e.id = entry_id)

/-- `settle_entry` (lines 162-207): validate `0 ≤ amount ≤ open`, then set
`settled_amount_cents += amount` and `status = "settled"` exactly when the new
settled amount equals `amount_cents`, else `"partially_settled"`. -/
def settle_entry (entries : List LedgerEntry) (entry_id : String) (amount_cents : ℤ) :
    SettleResult :=
  match find_entry entries entry_id with
  | none => .notFound
  | some entry =>
    let open_amount := entry.amount_cents - entry.settled_amount_cents
    if amount_cents < 0 ∨ open_amount < amount_cents then .invalidAmount
    else
      let new_settled := entry.settled_amount_cents + amount_cents
      let new_status := if new_settled = entry.amount_cents then "settled"
                        else "partially_settled"
      .ok { entry with settled_amount_cents := new_settled, status := new_status }

/-- `delete_entries_for_receipt` (lines 360-376): `update_many({"receipt_id":
ObjectId(receipt_id)}, {$set: {is_deleted: true}})`. Entries store
`receipt_id` as a string, and BSON equality distinguishes ObjectId from
string, so the filter matches `BsonVal.oid receipt_id`, never the stored
`BsonVal.str receipt_id`. -/
def delete_entries_for_receipt (entries : List LedgerEntry) (receipt_id : String) :
    List LedgerEntry :=
  entries.map (fun e =>
    if e.receipt_id = BsonVal.oid receipt_id then { e with is_deleted := true } else e)

/-- `get_ledger_by_receipt` (lines 82-92): filters on the string form and on
`is_deleted = false`. -/
def get_ledger_by_receipt (entries : List LedgerEntry) (receipt_id : String) :
    List LedgerEntry :=
  entries.filter (fun e => e.receipt_id = BsonVal.str receipt_id ∧ e.is_deleted = false)

/-! ## ReceiptRepository lifecycle operations (receipt_repo.py)

The persistence substrate is a sequential store state; each repository
method is a state transition, mirroring the Mongo queries it issues. -/

/-- The two collections the core touches. -/
structure DBState where
  receipts : List Receipt
  entries : List LedgerEntry
deriving DecidableEq

/-- `find_one({"_id": oid})`. -/
def find_receipt (st : DBState) (receipt_id : String) : Option Receipt :=
  st.receipts.find? (fun r => r.id = receipt_id)

/-- `find_one({"_id": oid, "owner_id": uoid, "is_deleted": False})`. -/
def find_owned_receipt (st : DBState) (receipt_id user_id : String) : Option Receipt :=
  st.receipts.find? (fun r => r.id = receipt_id ∧ r.owner_id = user_id ∧ r.is_deleted = false)

/-- Write back a receipt document by `_id`. -/
def put_receipt (st : DBState) (r : Receipt) : DBState :=
  { st with receipts := st.receipts.map (fun r0 => if r0.id = r.id then r else r0) }

/-- `sum(p.amount_paid_cents for p in receipt.payments)`. -/
def sum_payments (receipt : Receipt) : ℤ :=
  (receipt.payments.map Payment.amount_paid_cents).sum

/-- `finalize_receipt` (lines 503-564): validate draft status and that the
payments sum equals `total_cents`; then WRITE `status = "finalized"`; then call
`insert_ledger_entries` on the updated receipt. An exception raised by the
ledger step propagates after the status write has already been persisted. -/
def finalize_receipt (st : DBState) (receipt_id : String) :
    DBState × Except RepoError (Receipt × List LedgerEntry) :=
  match find_receipt st receipt_id with
  | none => (st, .error (.validation "Receipt not found"))
  | some receipt =>
    if receipt.status ≠ "draft" then
      (st, .error (.validation "Cannot finalize receipt: must be draft"))
    else if sum_payments receipt ≠ receipt.total_cents then
      (st, .error (.validation "Payments sum does not equal total"))
    else
      let finalized := { receipt with status := "finalized" }
      let st1 := put_receipt st finalized
      match insert_ledger_entries finalized with
      | .error e => (st1, .error e)
      | .ok new_entries =>
        ({ st1 with entries := st1.entries ++ new_entries }, .ok (finalized, new_entries))

/-- `unfinalize_receipt` (lines 566-609): owner-scoped lookup, require
`status == "finalized"`, soft-delete the receipt's ledger entries (see
`delete_entries_for_receipt`), then set `status = "draft"` and `$inc` the
version. No check of settlement progress is performed anywhere on this path. -/
def unfinalize_receipt (st : DBState) (receipt_id user_id : String) :
    DBState × Except RepoError (Option Receipt) :=
  match find_owned_receipt st receipt_id user_id with
  | none => (st, .ok none)
  | some receipt =>
    if receipt.status ≠ "finalized" then
      (st, .error (.validation "Can only unfinalize a finalized receipt"))
    else
      let st1 := { st with entries := delete_entries_for_receipt st.entries receipt_id }
      let updated := { receipt with status := "draft", version := receipt.version + 1 }
      (put_receipt st1 updated, .ok (some updated))

/-- `add_member` (lines 412-446): return `None` when the user already appears
in `participants`; otherwise `$push` a member participant. The update touches
`participants` and `updated_at` only — `version` is not incremented. -/
def add_member (st : DBState) (receipt_id user_id : String) : DBState × Option Receipt :=
  match find_receipt st receipt_id with
  | none => (st, none)
  | some receipt =>
    if receipt.participants.any (fun p => p.user_id = user_id) then (st, none)
    else
      let updated :=
        { receipt with participants :=
            receipt.participants ++ [{ user_id := user_id, role := "member" }] }
      (put_receipt st updated, some updated)

/-- `remove_member` (lines 448-489): reject when the user appears in any item
split or payment; otherwise `$pull` the participant. No version increment. -/
def remove_member (st : DBState) (receipt_id user_id : String) :
    DBState × Except RepoError (Option Receipt) :=
  match find_receipt st receipt_id with
  | none => (st, .ok none)
  | some receipt =>
    if receipt.items.any (fun item => item.splits.any (fun s => s.user_id = user_id)) then
      (st, .error (.validation "Cannot remove member: has splits in items"))
    else if receipt.payments.any (fun p => p.user_id = user_id) then
      (st, .error (.validation "Cannot remove member: has recorded payments"))
    else
      let updated :=
        { receipt with participants :=
            receipt.participants.filter (fun p => ¬ p.user_id = user_id) }
      (put_receipt st updated, .ok (some updated))

/-- `soft_delete_receipt` (lines 611-633): owner-scoped update setting
`is_deleted` and `updated_at` only. Returns whether a document was modified. -/
def soft_delete_receipt (st : DBState) (receipt_id user_id : String) : DBState × Bool :=
  match find_owned_receipt st receipt_id user_id with
  | none => (st, false)
  | some receipt => (put_receipt st { receipt with is_deleted := true }, true)

/-- `ReceiptUpdate` (app/schemas/receipt.py): partial patch, all content
fields optional, `version` required for the optimistic lock. The HTTP layer
converts `ItemBase`/`ChargeBase`/`PaymentBase` rows into the model types; the
payload here carries the converted rows. -/
structure ReceiptUpdatePayload where
  title : Option String := none
  description : Option String := none
  comments : Option String := none
  folder_id : Option String := none
  items : Option (List Item) := none
  charges : Option (List Charge) := none
  payments : Option (List Payment) := none
  version : ℤ
deriving DecidableEq

/-- `update_receipt` (lines 238-410): owner-scoped draft-only update with an
optimistic version check, field validation, subtotal/total recomputation
following the source's branching, settle-summary recomputation, and
`version = existing.version + 1`. In the sequential store model the final
conditional write always succeeds once the version check has passed. -/
def update_receipt (st : DBState) (receipt_id user_id : String)
    (u : ReceiptUpdatePayload) : DBState × Except RepoError (Option Receipt) :=
  match find_owned_receipt st receipt_id user_id with
  | none => (st, .ok none)
  | some existing =>
    if existing.status ≠ "draft" then
      (st, .error (.validation "Cannot update non-draft receipt"))
    else if existing.version ≠ u.version then
      (st, .error (.validation "Version conflict"))
    else
      match (match u.items with | some items => validate_items items | none => .ok ()) with
      | .error e => (st, .error e)
      | .ok _ =>
      match (match u.payments with | some ps => validate_payments ps | none => .ok ()) with
      | .error e => (st, .error e)
      | .ok _ =>
      match (match u.charges with | some cs => validate_charges cs | none => .ok ()) with
      | .error e => (st, .error e)
      | .ok _ =>
        let charges_for_calc := u.charges.getD existing.charges
        let subtotal' :=
          match u.items with
          | some items => calculate_subtotal items
          | none => existing.subtotal_cents
        let total' :=
          match u.items, u.charges with
          | some _, _ => calculate_total subtotal' charges_for_calc
          | none, some _ => calculate_total existing.subtotal_cents charges_for_calc
          | none, none => existing.total_cents
        let items' := u.items.getD existing.items
        let payments' := u.payments.getD existing.payments
        let updated :=
          { existing with
              title := u.title.getD existing.title
              description := u.description.getD existing.description
              comments := u.comments.getD existing.comments
              folder_id := u.folder_id.getD existing.folder_id
              items := items'
              charges := charges_for_calc
              payments := payments'
              subtotal_cents := subtotal'
              total_cents := total'
              version := existing.version + 1 }
        (put_receipt st updated, .ok (some updated))

/-! ## Dict lemmas -/

theorem dget_nil (k : String) : dget [] k = 0 := rfl

theorem dget_cons (kv : String × ℤ) (rest : Dict) (k : String) :
    dget (kv :: rest) k = if kv.1 = k then kv.2 else dget rest k := by
  by_cases h : kv.1 = k <;> simp [dget, List.find?_cons, h]

theorem dsum_cons (kv : String × ℤ) (rest : Dict) :
    dsum (kv :: rest) = kv.2 + dsum rest := by
  simp [dsum]

/-- `d[k] = d.get(k, 0) + x` adds exactly `x` to the sum of values, whether or
not the key is already present. -/
theorem dsum_dadd (d : Dict) (k : String) (x : ℤ) : dsum (dadd d k x) = dsum d + x := by
  induction d with
  | nil => simp [dadd, dget, dset, dsum]
  | cons kv rest ih =>
    by_cases h : kv.1 = k
    · simp only [dadd, dget_cons, if_pos h, dset, dsum_cons]
      omega
    · have hstep : dadd (kv :: rest) k x = kv :: dadd rest k x := by
        simp only [dadd, dget_cons, if_neg h, dset]
      rw [hstep, dsum_cons, ih, dsum_cons]
      omega

theorem dsum_foldl_eq {α : Type} (g : Dict → α → Dict) (f : α → ℤ)
    (hg : ∀ d x, dsum (g d x) = dsum d + f x) :
    ∀ (l : List α) (d : Dict), dsum (l.foldl g d) = dsum d + (l.map f).sum := by
  intro l
  induction l with
  | nil => simp
  | cons x rest ih =>
    intro d
    simp only [List.foldl_cons, List.map_cons, List.sum_cons, ih, hg]
    omega

theorem dsum_foldl_le {α : Type} (g : Dict → α → Dict) (f : α → ℤ) (l : List α)
    (hg : ∀ d, ∀ x ∈ l, dsum (g d x) ≤ dsum d + f x) :
    ∀ d : Dict, dsum (l.foldl g d) ≤ dsum d + (l.map f).sum := by
  induction l with
  | nil => simp
  | cons x rest ih =>
    intro d
    have h1 := hg d x (by simp)
    have h2 := ih (fun d2 y hy => hg d2 y (List.mem_cons_of_mem x hy)) (g d x)
    simp only [List.foldl_cons, List.map_cons, List.sum_cons]
    omega

theorem dset_zero_values (d : Dict) (k : String) (h : ∀ kv ∈ d, kv.2 = 0) :
    ∀ kv ∈ dset d k 0, kv.2 = 0 := by
  induction d with
  | nil => simp [dset]
  | cons kv0 rest ih =>
    by_cases hk : kv0.1 = k
    · simp only [dset, if_pos hk]
      intro kv hkv
      rcases List.mem_cons.mp hkv with h1 | h2
      · simp [h1]
      · exact h kv (List.mem_cons_of_mem kv0 h2)
    · simp only [dset, if_neg hk]
      intro kv hkv
      rcases List.mem_cons.mp hkv with h1 | h2
      · exact h kv (h1 ▸ List.mem_cons_self kv0 rest)
      · exact ih (fun kv2 hkv2 => h kv2 (List.mem_cons_of_mem kv0 hkv2)) kv h2

theorem init_liabilities_values (ps : List Participant) :
    ∀ kv ∈ init_liabilities ps, kv.2 = 0 := by
  have aux : ∀ (l : List Participant) (d : Dict), (∀ kv ∈ d, kv.2 = 0) →
      ∀ kv ∈ l.foldl (fun d2 p => dset d2 p.user_id 0) d, kv.2 = 0 := by
    intro l
    induction l with
    | nil => intro d h; simpa using h
    | cons p rest ih =>
      intro d h
      exact ih _ (dset_zero_values d p.user_id h)
  exact aux ps [] (by simp)

theorem dsum_eq_zero_of_values (d : Dict) (h : ∀ kv ∈ d, kv.2 = 0) : dsum d = 0 := by
  induction d with
  | nil => rfl
  | cons kv rest ih =>
    rw [dsum_cons, h kv (List.mem_cons_self kv rest),
      ih (fun kv2 hkv2 => h kv2 (List.mem_cons_of_mem kv hkv2))]
    omega

theorem dsum_init_liabilities (ps : List Participant) : dsum (init_liabilities ps) = 0 :=
  dsum_eq_zero_of_values _ (init_liabilities_values ps)

/-! ## Truncation lemmas -/

theorem pyTrunc_eq_floor {q : ℚ} (h : 0 ≤ q) : pyTrunc q = ⌊q⌋ := if_pos h

theorem pyTrunc_nonneg {q : ℚ} (h : 0 ≤ q) : 0 ≤ pyTrunc q := by
  rw [pyTrunc_eq_floor h]
  exact Int.floor_nonneg.mpr h

theorem floor_list_sum_le (l : List ℚ) :
    (((l.map (fun q => ⌊q⌋)).sum : ℤ) : ℚ) ≤ l.sum := by
  induction l with
  | nil => simp
  | cons q rest ih =>
    simp only [List.map_cons, List.sum_cons, Int.cast_add]
    exact add_le_add (Int.floor_le q) ih

/-- Truncating each non-negative part and summing never exceeds the floor of
the exact sum: the source's per-share `int(...)` can only lose cents. -/
theorem pyTrunc_sum_le_floor (l : List ℚ) (h : ∀ q ∈ l, 0 ≤ q) :
    (l.map pyTrunc).sum ≤ ⌊l.sum⌋ := by
  have hmap : l.map pyTrunc = l.map (fun q => ⌊q⌋) :=
    List.map_congr_left (fun q hq => pyTrunc_eq_floor (h q hq))
  rw [hmap]
  exact Int.le_floor.mpr (floor_list_sum_le l)

theorem sum_map_scaled (sub Q : ℚ) (l : List Split) :
    (l.map (fun s => sub * (s.share_quantity / Q))).sum
      = (sub / Q) * (l.map Split.share_quantity).sum := by
  induction l with
  | nil => simp
  | cons s rest ih =>
    simp only [List.map_cons, List.sum_cons, ih]
    ring

theorem sum_map_const_add {α : Type} (l : List α) (a : ℤ) (g : α → ℤ) :
    (l.map (fun x => a + g x)).sum = l.length * a + (l.map g).sum := by
  induction l with
  | nil => simp
  | cons x rest ih =>
    simp only [List.map_cons, List.sum_cons, ih, List.length_cons]
    push_cast
    ring

theorem range_ones_sum (n : ℕ) : ((List.range n).map (fun _ : ℕ => (1 : ℤ))).sum = n := by
  induction n with
  | zero => simp
  | succ m ih =>
    rw [List.range_succ, List.map_append, List.sum_append, ih]
    simp

theorem range_ite_sum (rem : ℤ) :
    ∀ n : ℕ, 0 ≤ rem → rem ≤ (n : ℤ) →
      ((List.range n).map (fun i : ℕ => if (i : ℤ) < rem then (1 : ℤ) else 0)).sum = rem := by
  intro n
  induction n with
  | zero =>
    intro h0 h1
    simp only [List.range_zero, List.map_nil, List.sum_nil]
    omega
  | succ n ih =>
    intro h0 h1
    rw [List.range_succ, List.map_append, List.sum_append]
    by_cases h : rem ≤ (n : ℤ)
    · rw [ih h0 h]
      have hn : ¬ ((n : ℤ) < rem) := by omega
      simp [hn]
    · have hrem : rem = (n : ℤ) + 1 := by push_cast at h1 ⊢; omega
      have hall : ((List.range n).map (fun i : ℕ => if (i : ℤ) < rem then (1 : ℤ) else 0))
          = (List.range n).map (fun _ : ℕ => (1 : ℤ)) := by
        apply List.map_congr_left
        intro i hi
        have hi2 : i < n := List.mem_range.mp hi
        have hlt : (i : ℤ) < rem := by omega
        simp [hlt]
      rw [hall, range_ones_sum]
      have hlast : ((n : ℤ) < rem) := by omega
      simp only [List.map_cons, List.map_nil, List.sum_cons, List.sum_nil, if_pos hlast]
      omega

theorem enum_map_fst_sum {α : Type} (l : List α) (g : ℕ → ℤ) :
    (l.enum.map (fun ip => g ip.1)).sum = ((List.range l.length).map g).sum := by
  have h1 : (fun ip : ℕ × α => g ip.1) = g ∘ Prod.fst := rfl
  rw [h1, ← List.map_map, List.enum_map_fst]

/-! ## Liability bounds (the split calculation loses cents, never creates them) -/

theorem sum_map_mul_left (c : ℚ) (l : List Split) :
    (l.map (fun s => c * s.share_quantity)).sum = c * (l.map Split.share_quantity).sum := by
  induction l with
  | nil => simp
  | cons s rest ih =>
    simp only [List.map_cons, List.sum_cons, ih]
    ring

theorem map_pyTrunc_compose {α : Type} (F : α → ℚ) (l : List α) :
    l.map (fun x => pyTrunc (F x)) = (l.map F).map pyTrunc := by
  induction l with
  | nil => rfl
  | cons x rest ih => simp only [List.map_cons, ih]

/-- Per-split truncation of proportional item shares stays below the item's
truncated subtotal. -/
theorem trunc_shares_bound (sub Q : ℚ) (hsub : 0 ≤ sub) (hQne : Q ≠ 0)
    (l : List Split) (hQ : (l.map Split.share_quantity).sum = Q)
    (hpos : ∀ s ∈ l, 0 < s.share_quantity) (d : Dict) :
    dsum (l.foldl
        (fun d2 split => dadd d2 split.user_id (pyTrunc (sub * (split.share_quantity / Q)))) d)
      ≤ dsum d + pyTrunc sub := by
  rw [dsum_foldl_eq
      (fun d2 split => dadd d2 split.user_id (pyTrunc (sub * (split.share_quantity / Q))))
      (fun split => pyTrunc (sub * (split.share_quantity / Q)))
      (fun d2 s => dsum_dadd d2 s.user_id _) l d]
  have hQ0 : 0 < Q := by
    have hge : (0:ℚ) ≤ (l.map Split.share_quantity).sum := by
      apply List.sum_nonneg
      intro x hx
      obtain ⟨s, hsmem, rfl⟩ := List.mem_map.mp hx
      exact le_of_lt (hpos s hsmem)
    rw [hQ] at hge
    exact lt_of_le_of_ne hge (Ne.symm hQne)
  rw [map_pyTrunc_compose]
  have hterms : ∀ q ∈ l.map (fun s => sub * (s.share_quantity / Q)), 0 ≤ q := by
    intro q hq
    obtain ⟨s, hsmem, rfl⟩ := List.mem_map.mp hq
    exact mul_nonneg hsub (le_of_lt (div_pos (hpos s hsmem) hQ0))
  have hb := pyTrunc_sum_le_floor _ hterms
  have hsum : (l.map (fun s => sub * (s.share_quantity / Q))).sum = sub := by
    have hfac : (l.map (fun s => sub * (s.share_quantity / Q))).sum
        = (sub / Q) * (l.map Split.share_quantity).sum := sum_map_scaled sub Q l
    rw [hfac, hQ, div_mul_cancel₀ sub hQne]
  rw [hsum] at hb
  rw [pyTrunc_eq_floor hsub]
  omega

/-- Per-split truncation of explicit charge shares (weights summing to 1)
stays below the charge amount. -/
theorem trunc_charge_shares_bound (price : ℤ) (hp : 0 ≤ price) (l : List Split)
    (hsum : (l.map Split.share_quantity).sum = 1)
    (hpos : ∀ s ∈ l, 0 < s.share_quantity) (d : Dict) :
    dsum (l.foldl
        (fun d2 split => dadd d2 split.user_id (pyTrunc ((price : ℚ) * split.share_quantity))) d)
      ≤ dsum d + price := by
  rw [dsum_foldl_eq
      (fun d2 split => dadd d2 split.user_id (pyTrunc ((price : ℚ) * split.share_quantity)))
      (fun split => pyTrunc ((price : ℚ) * split.share_quantity))
      (fun d2 s => dsum_dadd d2 s.user_id _) l d]
  rw [map_pyTrunc_compose]
  have hterms : ∀ q ∈ l.map (fun s => (price : ℚ) * s.share_quantity), 0 ≤ q := by
    intro q hq
    obtain ⟨s, hsmem, rfl⟩ := List.mem_map.mp hq
    exact mul_nonneg (by exact_mod_cast hp) (le_of_lt (hpos s hsmem))
  have hb := pyTrunc_sum_le_floor _ hterms
  have hsum2 : (l.map (fun s => (price : ℚ) * s.share_quantity)).sum = (price : ℚ) := by
    rw [sum_map_mul_left, hsum, mul_one]
  rw [hsum2, Int.floor_intCast] at hb
  omega

/-- The equal-split branch of the charge loop is exact: floor division plus
one extra cent for the first `remainder` participants sums to the price. -/
theorem equal_split_sum (price : ℤ) (ps : List Participant) (hn : 0 < ps.length) (d : Dict) :
    dsum (ps.enum.foldl
        (fun d2 ip => dadd d2 ip.2.user_id
          (price / (ps.length : ℤ) + if (ip.1 : ℤ) < price % (ps.length : ℤ) then 1 else 0)) d)
      = dsum d + price := by
  rw [dsum_foldl_eq
      (fun d2 (ip : ℕ × Participant) => dadd d2 ip.2.user_id
        (price / (ps.length : ℤ) + if (ip.1 : ℤ) < price % (ps.length : ℤ) then 1 else 0))
      (fun ip => price / (ps.length : ℤ) + if (ip.1 : ℤ) < price % (ps.length : ℤ) then 1 else 0)
      (fun d2 ip => dsum_dadd d2 ip.2.user_id _) ps.enum d]
  have hlen : ((ps.enum.length : ℤ)) = (ps.length : ℤ) := by
    rw [List.enum_length]
  have hne : ((ps.length : ℤ)) ≠ 0 := by
    have : (0:ℤ) < (ps.length : ℤ) := by exact_mod_cast hn
    omega
  have h0 : 0 ≤ price % (ps.length : ℤ) := Int.emod_nonneg price hne
  have h1 : price % (ps.length : ℤ) ≤ (ps.length : ℤ) := by
    have : price % (ps.length : ℤ) < (ps.length : ℤ) :=
      Int.emod_lt_of_pos price (by exact_mod_cast hn)
    omega
  rw [sum_map_const_add ps.enum (price / (ps.length : ℤ))
      (fun ip => if (ip.1 : ℤ) < price % (ps.length : ℤ) then 1 else 0)]
  rw [enum_map_fst_sum ps (fun i : ℕ => if (i : ℤ) < price % (ps.length : ℤ) then (1:ℤ) else 0)]
  rw [range_ite_sum (price % (ps.length : ℤ)) ps.length h0 h1]
  rw [List.enum_length]
  have := Int.ediv_add_emod price (ps.length : ℤ)
  omega

theorem item_step_le (d : Dict) (item : Item)
    (hp : 0 ≤ item.unit_price_cents) (hq : 0 ≤ item.quantity)
    (hs : ∀ s ∈ item.splits, 0 < s.share_quantity) :
    dsum (item_liabilities_step d item)
      ≤ dsum d + pyTrunc ((item.unit_price_cents : ℚ) * item.quantity) := by
  have hsub0 : (0:ℚ) ≤ (item.unit_price_cents : ℚ) * item.quantity :=
    mul_nonneg (by exact_mod_cast hp) hq
  have htr : 0 ≤ pyTrunc ((item.unit_price_cents : ℚ) * item.quantity) := pyTrunc_nonneg hsub0
  simp only [item_liabilities_step]
  by_cases h1 : item.splits = []
  · rw [if_pos h1]
    omega
  · rw [if_neg h1]
    by_cases h2 : (item.splits.map Split.share_quantity).sum = 0
    · rw [if_pos h2]
      omega
    · rw [if_neg h2]
      exact trunc_shares_bound _ _ hsub0 h2 item.splits rfl hs d

theorem charge_step_le (ps : List Participant) (d : Dict) (c : Charge)
    (hp : 0 ≤ c.unit_price_cents)
    (hsum : c.splits ≠ [] → (c.splits.map Split.share_quantity).sum = 1)
    (hpos : ∀ s ∈ c.splits, 0 < s.share_quantity) :
    dsum (charge_liabilities_step ps d c) ≤ dsum d + c.unit_price_cents := by
  simp only [charge_liabilities_step]
  by_cases h1 : c.splits = []
  · rw [if_neg (by simp [h1])]
    by_cases h2 : 0 < ps.length
    · rw [if_pos h2]
      rw [equal_split_sum c.unit_price_cents ps h2 d]
    · rw [if_neg h2]
      omega
  · rw [if_pos (show c.splits ≠ [] from h1)]
    exact trunc_charge_shares_bound _ hp _ (hsum h1) hpos d

/-! ## Claim C1 — money conservation of the split calculation -/

/-- C1 (amended). For validated inputs (non-negative prices and quantities,
positive split shares, explicit charge weights summing to 1), the per-user
liabilities computed by `_build_settle_summary` sum to AT MOST
`subtotal_cents + Σ charge.unit_price_cents`. The original claim's exact
equality fails: each share is truncated separately with `int(...)` and no
remainder is redistributed, so cents can be lost (never created). -/
theorem C1_split_liabilities_sum_bounded
    (ps : List Participant) (items : List Item) (charges : List Charge)
    (hitems : ∀ it ∈ items, 0 ≤ it.unit_price_cents ∧ 0 ≤ it.quantity ∧
      ∀ s ∈ it.splits, 0 < s.share_quantity)
    (hcharges : ∀ c ∈ charges, 0 ≤ c.unit_price_cents ∧
      (c.splits ≠ [] → (c.splits.map Split.share_quantity).sum = 1) ∧
      ∀ s ∈ c.splits, 0 < s.share_quantity) :
    dsum (liabilities_of ps items charges)
      ≤ calculate_subtotal items + calculate_charges_total charges := by
  unfold liabilities_of calculate_subtotal calculate_charges_total
  have h1 := dsum_foldl_le item_liabilities_step
    (fun it => pyTrunc ((it.unit_price_cents : ℚ) * it.quantity)) items
    (fun d it hit => item_step_le d it (hitems it hit).1 (hitems it hit).2.1
      (hitems it hit).2.2)
    (init_liabilities ps)
  have h2 := dsum_foldl_le (charge_liabilities_step ps) Charge.unit_price_cents charges
    (fun d c hc => charge_step_le ps d c (hcharges c hc).1 (hcharges c hc).2.1
      (hcharges c hc).2.2)
    (items.foldl item_liabilities_step (init_liabilities ps))
  have h0 := dsum_init_liabilities ps
  omega

/-- C1 witness: the bound applied at a concrete receipt (one item fully
assigned to one participant, one unsplit 7-cent charge). -/
theorem C1_split_liabilities_sum_bounded_witness :
    dsum (liabilities_of [{ user_id := "alice", role := "owner" }]
        [{ unit_price_cents := 100, quantity := 1, splits := [⟨"alice", 1⟩] }]
        [{ unit_price_cents := 7 }])
      ≤ calculate_subtotal
          [{ unit_price_cents := 100, quantity := 1, splits := [⟨"alice", 1⟩] }]
        + calculate_charges_total [{ unit_price_cents := 7 }] :=
  C1_split_liabilities_sum_bounded _ _ _ (by simp) (by simp)

/-- C1 counterexample: a validated receipt — one 101-cent item of quantity 1
split half-and-half — yields `int(101 * 0.5) = 50` cents for each of the two
users, so the liabilities sum to 100 while `subtotal_cents + Σ charges = 101`;
the claimed exact conservation is false. -/
theorem C1_split_liabilities_sum_counterexample :
    dsum (liabilities_of
        [{ user_id := "a", role := "owner" }, { user_id := "b" }]
        [{ unit_price_cents := 101, quantity := 1,
           splits := [⟨"a", 1/2⟩, ⟨"b", 1/2⟩] }] []) = 100 ∧
      calculate_subtotal
          [{ unit_price_cents := 101, quantity := 1,
             splits := [⟨"a", 1/2⟩, ⟨"b", 1/2⟩] }]
        + calculate_charges_total [] = 101 := by
  constructor <;>
    (norm_num [liabilities_of, init_liabilities, item_liabilities_step, dadd, dget_nil,
      dget_cons, dset, dsum, pyTrunc, calculate_subtotal, calculate_charges_total,
      List.foldl_cons, List.foldl_nil] <;>
     simp [dget_nil, dget_cons])

/-! ## Claim C7 — what the greedy matcher emits -/

/-- Total obligation amount of a list of ledger entries. -/
def entries_sum (es : List LedgerEntry) : ℤ := (es.map LedgerEntry.amount_cents).sum

/-- `Σ max(net(u), 0)` over a net-positions dict. -/
def possum (np : Dict) : ℤ := (np.map (fun ua => max ua.2 0)).sum

/-- `Σ max(-net(u), 0)` over a net-positions dict. -/
def negsum (np : Dict) : ℤ := (np.map (fun ua => max (-ua.2) 0)).sum

theorem entries_sum_append (a b : List LedgerEntry) :
    entries_sum (a ++ b) = entries_sum a + entries_sum b := by
  simp [entries_sum]

theorem dsum_nonneg_of_pos (l : List (String × ℤ)) (h : ∀ x ∈ l, 0 < x.2) :
    0 ≤ dsum l := by
  induction l with
  | nil => simp [dsum]
  | cons x rest ih =>
    rw [dsum_cons]
    have h1 := h x (List.mem_cons_self x rest)
    have h2 := ih (fun y hy => h y (List.mem_cons_of_mem x hy))
    omega

/-- The greedy two-cursor loop transfers exactly the smaller of the two
outstanding totals: the emitted amounts sum to `min (Σ debtors) (Σ creditors)`. -/
theorem match_loop_sum (rid : String) :
    ∀ (ds cs : List (String × ℤ)), (∀ x ∈ ds, 0 < x.2) → (∀ x ∈ cs, 0 < x.2) →
      entries_sum (match_loop rid ds cs) = min (dsum ds) (dsum cs) := by
  intro ds cs
  induction ds, cs using match_loop.induct rid with
  | case1 cs =>
    intro _ hc
    have h := dsum_nonneg_of_pos cs hc
    have h0 : dsum ([] : List (String × ℤ)) = 0 := rfl
    simp only [match_loop, entries_sum, List.map_nil, List.sum_nil]
    omega
  | case2 hd tl =>
    intro hd2 _
    have h := dsum_nonneg_of_pos (hd :: tl) hd2
    have h0 : dsum ([] : List (String × ℤ)) = 0 := rfl
    simp only [match_loop, entries_sum, List.map_nil, List.sum_nil]
    omega
  | case3 d da ds c ca cs m hda hca ih =>
    intro h1 h2
    have hdpos : 0 < da := h1 (d, da) (List.mem_cons_self _ _)
    have hcpos : 0 < ca := h2 (c, ca) (List.mem_cons_self _ _)
    have hm : 0 < m := by simp only [m]; omega
    have ihh := ih (fun x hx => h1 x (List.mem_cons_of_mem _ hx))
      (fun x hx => h2 x (List.mem_cons_of_mem _ hx))
    simp only [match_loop, if_pos hm, if_pos hda, if_pos hca, entries_sum_append, ihh,
      dsum_cons]
    simp only [entries_sum, List.map_cons, List.map_nil, List.sum_cons, List.sum_nil,
      mk_pending_entry]
    simp only [m] at hda hca ⊢
    omega
  | case4 d da ds c ca cs m hda hca ih =>
    intro h1 h2
    have hdpos : 0 < da := h1 (d, da) (List.mem_cons_self _ _)
    have hcpos : 0 < ca := h2 (c, ca) (List.mem_cons_self _ _)
    have hm : 0 < m := by simp only [m]; omega
    have hcrest : ∀ x ∈ (c, ca - m) :: cs, 0 < x.2 := by
      intro x hx
      rcases List.mem_cons.mp hx with h | h
      · subst h
        simp only [m] at hca ⊢
        omega
      · exact h2 x (List.mem_cons_of_mem _ h)
    have ihh := ih (fun x hx => h1 x (List.mem_cons_of_mem _ hx)) hcrest
    simp only [match_loop, if_pos hm, if_pos hda, if_neg hca, entries_sum_append, ihh,
      dsum_cons]
    simp only [entries_sum, List.map_cons, List.map_nil, List.sum_cons, List.sum_nil,
      mk_pending_entry]
    simp only [m] at hda hca ⊢
    omega
  | case5 d da ds c ca cs m hda ih =>
    intro h1 h2
    have hdpos : 0 < da := h1 (d, da) (List.mem_cons_self _ _)
    have hcpos : 0 < ca := h2 (c, ca) (List.mem_cons_self _ _)
    have hm : 0 < m := by simp only [m]; omega
    have hdrest : ∀ x ∈ (d, da - m) :: ds, 0 < x.2 := by
      intro x hx
      rcases List.mem_cons.mp hx with h | h
      · subst h
        simp only [m] at hda ⊢
        omega
      · exact h1 x (List.mem_cons_of_mem _ h)
    have ihh := ih hdrest (fun x hx => h2 x (List.mem_cons_of_mem _ hx))
    simp only [match_loop, if_pos hm, if_neg hda, entries_sum_append, ihh, dsum_cons]
    simp only [entries_sum, List.map_cons, List.map_nil, List.sum_cons, List.sum_nil,
      mk_pending_entry]
    simp only [m] at hda ⊢
    omega

theorem possum_cons (x : String × ℤ) (rest : Dict) :
    possum (x :: rest) = max x.2 0 + possum rest := by
  simp [possum]

theorem negsum_cons (x : String × ℤ) (rest : Dict) :
    negsum (x :: rest) = max (-x.2) 0 + negsum rest := by
  simp [negsum]

theorem dsum_filter_pos (np : Dict) :
    dsum (np.filter (fun ua => decide (0 < ua.2))) = possum np := by
  induction np with
  | nil => rfl
  | cons x rest ih =>
    rw [List.filter_cons, possum_cons]
    by_cases h : 0 < x.2
    · rw [if_pos (by simpa using h), dsum_cons, ih]
      omega
    · rw [if_neg (by simpa using h), ih]
      omega

theorem dsum_filter_neg (np : Dict) :
    dsum ((np.filter (fun ua => decide (ua.2 < 0))).map (fun ua => (ua.1, -ua.2)))
      = negsum np := by
  induction np with
  | nil => rfl
  | cons x rest ih =>
    rw [List.filter_cons, negsum_cons]
    by_cases h : x.2 < 0
    · rw [if_pos (by simpa using h), List.map_cons, dsum_cons, ih]
      omega
    · rw [if_neg (by simpa using h), ih]
      omega

/-- C7 (amended). For ANY net-positions dict, the ledger entries generated by
`_match_debtors_creditors` have amounts summing to
`min (Σ max(net,0)) (Σ max(-net,0))`, independently of enumeration order. The
original claim's equality with BOTH sums holds only when the net positions sum
to zero, which the ledger pipeline does not guarantee (its liability
calculation ignores charges entirely). -/
theorem C7_ledger_entries_sum_eq_min (rid : String) (np : Dict) :
    entries_sum (match_debtors_creditors rid np) = min (possum np) (negsum np) := by
  unfold match_debtors_creditors
  have hpos1 : ∀ x ∈ np.filter (fun ua => decide (0 < ua.2)), 0 < x.2 := by
    intro x hx
    exact of_decide_eq_true (List.mem_filter.mp hx).2
  have hpos2 : ∀ x ∈ (np.filter (fun ua => decide (ua.2 < 0))).map (fun ua => (ua.1, -ua.2)),
      0 < x.2 := by
    intro x hx
    obtain ⟨ua, hmem, rfl⟩ := List.mem_map.mp hx
    have := of_decide_eq_true (List.mem_filter.mp hmem).2
    simp only
    omega
  rw [match_loop_sum rid _ _ hpos1 hpos2, dsum_filter_pos, dsum_filter_neg]

/-- The Scenario-style finalized receipt that refutes C7 as stated: one
100-cent unsplit charge, paid by "a". -/
def exReceiptC7 : Receipt :=
  { id := "r7", owner_id := "a", title := "fees", status := "finalized",
    participants := [{ user_id := "a", role := "owner" }, { user_id := "b" }],
    items := [], charges := [{ name := "fee", unit_price_cents := 100 }],
    payments := [{ user_id := "a", amount_paid_cents := 100 }],
    subtotal_cents := 0, total_cents := 100 }

/-- C7 counterexample: on `exReceiptC7` the ledger pipeline succeeds and emits
NO entries (the liability calculation returns all-zero liabilities because
there are no items, so there are no debtors), yet `Σ max(-net,0) = 100`. The
claimed equality `Σ entries = Σ max(-net,0)` is false. -/
theorem C7_ledger_entries_sum_counterexample :
    insert_ledger_entries exReceiptC7 = .ok [] ∧
      (calculate_user_liabilities exReceiptC7).map
        (fun liab => negsum (calculate_net_positions liab (get_user_payments exReceiptC7)))
        = .ok 100 := by
  constructor
  · simp [insert_ledger_entries, exReceiptC7, calculate_user_liabilities, init_liabilities,
      get_user_payments, payments_by_user, calculate_net_positions, match_debtors_creditors,
      match_loop, dget_nil, dget_cons, dadd, dset, total_split_qty]
  · rfl

/-! ## Claim C9 — charge split-share rounding -/

/-- C9 (amended). For a charge with a non-empty splits list, EVERY listed
user's share — the final one included — is `int(charge.unit_price_cents *
split.share_quantity)`; the loop simply accumulates these truncated shares, so
the total liability added equals their plain sum, which (for validated
weights summing to 1) is at most `unit_price_cents` and can be strictly less.
No user absorbs the rounding remainder and the shares need not sum to the
charge amount. -/
theorem C9_charge_shares_truncated (ps : List Participant) (d : Dict) (c : Charge)
    (h1 : c.splits ≠ []) (hp : 0 ≤ c.unit_price_cents)
    (hsum : (c.splits.map Split.share_quantity).sum = 1)
    (hpos : ∀ s ∈ c.splits, 0 < s.share_quantity) :
    dsum (charge_liabilities_step ps d c) = dsum d +
        (c.splits.map (fun s => pyTrunc ((c.unit_price_cents : ℚ) * s.share_quantity))).sum ∧
      dsum (charge_liabilities_step ps d c) ≤ dsum d + c.unit_price_cents := by
  constructor
  · simp only [charge_liabilities_step, if_pos h1]
    exact dsum_foldl_eq
      (fun d2 split => dadd d2 split.user_id (pyTrunc ((c.unit_price_cents : ℚ) * split.share_quantity)))
      (fun split => pyTrunc ((c.unit_price_cents : ℚ) * split.share_quantity))
      (fun d2 s => dsum_dadd d2 s.user_id _) c.splits d
  · exact charge_step_le ps d c hp (fun _ => hsum) hpos

/-- C9 witness: the characterization applied to a concrete single-split charge. -/
theorem C9_charge_shares_truncated_witness :
    dsum (charge_liabilities_step [] []
        { name := "tip", unit_price_cents := 7, splits := [⟨"a", 1⟩] }) = 0 +
        ([⟨"a", (1:ℚ)⟩].map
          (fun s : Split => pyTrunc ((7 : ℚ) * s.share_quantity))).sum ∧
      dsum (charge_liabilities_step [] []
        { name := "tip", unit_price_cents := 7, splits := [⟨"a", 1⟩] }) ≤ 0 + 7 :=
  C9_charge_shares_truncated [] [] _ (by simp) (by simp) (by simp) (by simp)

/-- C9 counterexample: a 101-cent charge split half-and-half gives both users
`int(101 * 0.5) = 50`; the final user receives 50, not the 51 that
remainder-absorption would require, and the shares sum to 100 ≠ 101. -/
theorem C9_charge_shares_counterexample :
    dget (charge_liabilities_step [] []
        { name := "tip", unit_price_cents := 101, splits := [⟨"a", 1/2⟩, ⟨"b", 1/2⟩] }) "a"
        = 50 ∧
      dget (charge_liabilities_step [] []
        { name := "tip", unit_price_cents := 101, splits := [⟨"a", 1/2⟩, ⟨"b", 1/2⟩] }) "b"
        = 50 ∧
      (50 + 50 : ℤ) ≠ 101 := by
  refine ⟨?_, ?_, by decide⟩ <;>
    (norm_num [charge_liabilities_step, dadd, dget_nil, dget_cons, dset, pyTrunc];
      simp [dget_nil, dget_cons])

/-! ## Claim C5 — settle_entry error contract -/

/-- C5 (amended). `settle_entry` returns `None` (not found) exactly when no
entry has the requested id; raises `InvalidSettlementAmount` when the amount
is negative or exceeds the open amount; and otherwise succeeds, adding the
amount to `settled_amount_cents` (which therefore never decreases and never
exceeds `amount_cents`). Contrary to the original claim there is NO
`AlreadyDeleted` check: a soft-deleted entry is found and settled exactly like
a live one, its `is_deleted` flag carried over unchanged. -/
theorem C5_settle_entry_contract (entries : List LedgerEntry) (eid : String) (amt : ℤ) :
    (find_entry entries eid = none → settle_entry entries eid amt = .notFound) ∧
    (∀ e, find_entry entries eid = some e →
      ((amt < 0 ∨ e.amount_cents - e.settled_amount_cents < amt) →
        settle_entry entries eid amt = .invalidAmount) ∧
      (0 ≤ amt → amt ≤ e.amount_cents - e.settled_amount_cents →
        ∃ e', settle_entry entries eid amt = .ok e' ∧
          e'.settled_amount_cents = e.settled_amount_cents + amt ∧
          e.settled_amount_cents ≤ e'.settled_amount_cents ∧
          e'.amount_cents = e.amount_cents ∧
          (e.settled_amount_cents + amt ≤ e.amount_cents →
            e'.settled_amount_cents ≤ e'.amount_cents) ∧
          e'.is_deleted = e.is_deleted)) := by
  constructor
  · intro hnone
    simp only [settle_entry, hnone]
  · intro e hsome
    constructor
    · intro hbad
      simp only [settle_entry, hsome]
      rw [if_pos (by omega)]
    · intro h0 hle
      simp only [settle_entry, hsome]
      rw [if_neg (by omega)]
      exact ⟨_, rfl, rfl, le_add_of_nonneg_right h0, rfl, fun h => h, rfl⟩

/-- The scenario-4 style entry, except soft-deleted. -/
def exDeletedEntry : LedgerEntry :=
  { id := "e1", receipt_id := .str "r1", debtor_id := "b", creditor_id := "a",
    amount_cents := 100, settled_amount_cents := 0, status := "pending",
    is_deleted := true }

/-- C5 counterexample: settling 50 cents against a soft-deleted entry
succeeds — the code never fails with `AlreadyDeleted` as the claim requires. -/
theorem C5_settle_deleted_counterexample :
    exDeletedEntry.is_deleted = true ∧
      settle_entry [exDeletedEntry] "e1" 50 =
        .ok { id := "e1", receipt_id := .str "r1", debtor_id := "b", creditor_id := "a",
              amount_cents := 100, settled_amount_cents := 50,
              status := "partially_settled", is_deleted := true } :=
  ⟨rfl, rfl⟩

/-- C5 witness: the success branch of the contract applied to the concrete
deleted entry, settling 50 of 100 open cents. -/
theorem C5_settle_entry_contract_witness :
    ∃ e', settle_entry [exDeletedEntry] "e1" 50 = .ok e' ∧
      e'.settled_amount_cents = exDeletedEntry.settled_amount_cents + 50 ∧
      exDeletedEntry.settled_amount_cents ≤ e'.settled_amount_cents ∧
      e'.amount_cents = exDeletedEntry.amount_cents ∧
      (exDeletedEntry.settled_amount_cents + 50 ≤ exDeletedEntry.amount_cents →
        e'.settled_amount_cents ≤ e'.amount_cents) ∧
      e'.is_deleted = exDeletedEntry.is_deleted :=
  ((C5_settle_entry_contract [exDeletedEntry] "e1" 50).2 exDeletedEntry rfl).2
    (by decide) (by decide)

/-! ## Claim C6 — ledger-entry status characterization -/

/-- C6 (amended). At creation every emitted entry has `status = "pending"`,
`settled_amount_cents = 0` and `amount_cents > 0`. After every successful
`settle_entry` call the new status is `"settled"` if and only if the new
settled amount equals `amount_cents`, and `"partially_settled"` otherwise —
INCLUDING the case `settled_amount_cents = 0` reached by settling 0 cents, so
the original claim's `partially_settled ⇔ 0 < settled < amount` is false. -/
theorem C6_entry_status_characterization :
    (∀ (rid : String) (ds cs : List (String × ℤ)) (e : LedgerEntry),
      e ∈ match_loop rid ds cs →
        e.status = "pending" ∧ e.settled_amount_cents = 0 ∧ 0 < e.amount_cents) ∧
    (∀ (entries : List LedgerEntry) (eid : String) (amt : ℤ) (e' : LedgerEntry),
      settle_entry entries eid amt = .ok e' →
        (e'.status = "settled" ↔ e'.settled_amount_cents = e'.amount_cents) ∧
        (e'.status = "partially_settled" ↔ e'.settled_amount_cents ≠ e'.amount_cents)) := by
  constructor
  · intro rid ds cs
    induction ds, cs using match_loop.induct rid with
    | case1 cs =>
      intro e he
      simp [match_loop] at he
    | case2 hd tl =>
      intro e he
      simp [match_loop] at he
    | case3 d da ds c ca cs m hda hca ih =>
      intro e he
      by_cases hm : 0 < m
      · simp only [match_loop, if_pos hm, if_pos hda, if_pos hca] at he
        rcases List.mem_append.mp he with h | h
        · have he2 : e = mk_pending_entry rid d c m := by simpa using h
          subst he2
          exact ⟨rfl, rfl, hm⟩
        · exact ih e h
      · simp only [match_loop, if_neg hm, if_pos hda, if_pos hca] at he
        rcases List.mem_append.mp he with h | h
        · simp at h
        · exact ih e h
    | case4 d da ds c ca cs m hda hca ih =>
      intro e he
      by_cases hm : 0 < m
      · simp only [match_loop, if_pos hm, if_pos hda, if_neg hca] at he
        rcases List.mem_append.mp he with h | h
        · have he2 : e = mk_pending_entry rid d c m := by simpa using h
          subst he2
          exact ⟨rfl, rfl, hm⟩
        · exact ih e h
      · simp only [match_loop, if_neg hm, if_pos hda, if_neg hca] at he
        rcases List.mem_append.mp he with h | h
        · simp at h
        · exact ih e h
    | case5 d da ds c ca cs m hda ih =>
      intro e he
      by_cases hm : 0 < m
      · simp only [match_loop, if_pos hm, if_neg hda] at he
        rcases List.mem_append.mp he with h | h
        · have he2 : e = mk_pending_entry rid d c m := by simpa using h
          subst he2
          exact ⟨rfl, rfl, hm⟩
        · exact ih e h
      · simp only [match_loop, if_neg hm, if_neg hda] at he
        rcases List.mem_append.mp he with h | h
        · simp at h
        · exact ih e h
  · intro entries eid amt e' hok
    cases hfind : find_entry entries eid with
    | none => simp [settle_entry, hfind] at hok
    | some e =>
      simp only [settle_entry, hfind] at hok
      by_cases hbad : amt < 0 ∨ e.amount_cents - e.settled_amount_cents < amt
      · rw [if_pos hbad] at hok
        exact absurd hok (by simp)
      · rw [if_neg hbad] at hok
        have he' : e' = { e with
            settled_amount_cents := e.settled_amount_cents + amt,
            status := if e.settled_amount_cents + amt = e.amount_cents then "settled"
                      else "partially_settled" } := by
          cases hok
          rfl
        subst he'
        by_cases hfull : e.settled_amount_cents + amt = e.amount_cents
        · rw [if_pos hfull]
          simp [hfull]
        · rw [if_neg hfull]
          constructor
          · constructor
            · intro h
              simp at h
            · intro h
              exact absurd h (by simpa using hfull)
          · simp [hfull]

/-- A pending scenario-1 entry (B owes A 100, nothing settled). -/
def exPendingEntry : LedgerEntry :=
  { id := "e2", receipt_id := .str "r1", debtor_id := "b", creditor_id := "a",
    amount_cents := 100 }

/-- The entry after fully settling `exPendingEntry`. -/
def exSettledFull : LedgerEntry :=
  { exPendingEntry with settled_amount_cents := 100, status := "settled" }

/-- C6 witness: the creation invariant applied to the single entry emitted by
the matcher for one debtor and one creditor, and the settle characterization
applied to a full 100-cent settlement of `exPendingEntry`. -/
theorem C6_entry_status_characterization_witness :
    ((mk_pending_entry "r" "b" "a" 100).status = "pending" ∧
      (mk_pending_entry "r" "b" "a" 100).settled_amount_cents = 0 ∧
      0 < (mk_pending_entry "r" "b" "a" 100).amount_cents) ∧
    ((exSettledFull.status = "settled" ↔
        exSettledFull.settled_amount_cents = exSettledFull.amount_cents) ∧
      (exSettledFull.status = "partially_settled" ↔
        exSettledFull.settled_amount_cents ≠ exSettledFull.amount_cents)) :=
  ⟨C6_entry_status_characterization.1 "r" [("b", 100)] [("a", 100)]
      (mk_pending_entry "r" "b" "a" 100) (by simp [match_loop]),
    C6_entry_status_characterization.2 [exPendingEntry] "e2" 100 exSettledFull rfl⟩

/-- C6 counterexample: settling 0 cents (which the amount validation allows)
on a fresh entry sets `status = "partially_settled"` while
`settled_amount_cents` stays 0 — refuting `partially_settled ⇔ 0 < settled`. -/
theorem C6_settle_zero_counterexample :
    settle_entry [exPendingEntry] "e2" 0 =
      .ok { id := "e2", receipt_id := .str "r1", debtor_id := "b", creditor_id := "a",
            amount_cents := 100, settled_amount_cents := 0,
            status := "partially_settled" } ∧
      ¬ ((0:ℤ) < 0) :=
  ⟨rfl, by decide⟩

/-! ## Claim C10 — settle-summary status mapping -/

/-- C10 (amended). After a mutation (`_build_settle_summary`) each row's
status follows the sign of `net_cents`: creditor / settled / pending. After a
settlement event the overlay of `update_settle_summary_from_ledger` REPLACES
that mapping by one computed from settlement progress alone: `"settled"` iff
the (capped) settled amount covers a positive `amount_cents`,
`"partially_settled"` iff it is positive but not covering, and `"pending"`
otherwise — so a creditor (`net_cents < 0`, `amount_cents = 0`) and a
zero-net participant are both relabelled `"pending"`, contradicting the
original claim. -/
theorem C10_settle_summary_status_mapping :
    (∀ (ps : List Participant) (items : List Item) (charges : List Charge)
        (pays : List Payment) (s : SummaryEntry),
      s ∈ build_settle_summary ps items charges pays →
        (s.status = "creditor" ↔ s.net_cents < 0) ∧
        (s.status = "settled" ↔ s.net_cents = 0) ∧
        (s.status = "pending" ↔ 0 < s.net_cents)) ∧
    (∀ (base : List SummaryEntry) (entries : List LedgerEntry) (s : SummaryEntry),
      s ∈ overlay_summary base entries →
        (s.status = "settled" ↔
          (s.amount_cents ≤ s.settled_amount_cents ∧ 0 < s.amount_cents)) ∧
        (s.status = "partially_settled" ↔
          (¬ (s.amount_cents ≤ s.settled_amount_cents ∧ 0 < s.amount_cents) ∧
            0 < s.settled_amount_cents)) ∧
        (s.status = "pending" ↔
          (¬ (s.amount_cents ≤ s.settled_amount_cents ∧ 0 < s.amount_cents) ∧
            ¬ 0 < s.settled_amount_cents))) := by
  have hrow : ∀ (uid : String) (liab paid : ℤ),
      ((summary_row uid liab paid).status = "creditor" ↔
        (summary_row uid liab paid).net_cents < 0) ∧
      ((summary_row uid liab paid).status = "settled" ↔
        (summary_row uid liab paid).net_cents = 0) ∧
      ((summary_row uid liab paid).status = "pending" ↔
        0 < (summary_row uid liab paid).net_cents) := by
    intro uid liab paid
    simp only [summary_row]
    by_cases h1 : liab - paid < 0
    · simp [h1]
      omega
    · rw [if_neg h1]
      by_cases h2 : liab - paid = 0
      · simp [h2]
      · simp [h1, h2]
        omega
  have hover : ∀ (settled : Dict) (s0 : SummaryEntry),
      ((overlay_row settled s0).status = "settled" ↔
        ((overlay_row settled s0).amount_cents ≤ (overlay_row settled s0).settled_amount_cents ∧
          0 < (overlay_row settled s0).amount_cents)) ∧
      ((overlay_row settled s0).status = "partially_settled" ↔
        (¬ ((overlay_row settled s0).amount_cents ≤ (overlay_row settled s0).settled_amount_cents ∧
            0 < (overlay_row settled s0).amount_cents) ∧
          0 < (overlay_row settled s0).settled_amount_cents)) ∧
      ((overlay_row settled s0).status = "pending" ↔
        (¬ ((overlay_row settled s0).amount_cents ≤ (overlay_row settled s0).settled_amount_cents ∧
            0 < (overlay_row settled s0).amount_cents) ∧
          ¬ 0 < (overlay_row settled s0).settled_amount_cents)) := by
    intro settled s0
    simp only [overlay_row]
    by_cases h1 : decide (s0.amount_cents ≤
        min s0.amount_cents (dget settled s0.user_id)) = true ∧ 0 < s0.amount_cents
    · rw [if_pos h1]
      have h1' := of_decide_eq_true h1.1
      simp [h1.2]
      omega
    · rw [if_neg h1]
      simp only [decide_eq_true_eq] at h1
      by_cases h2 : 0 < min s0.amount_cents (dget settled s0.user_id)
      · rw [if_pos h2]
        simp [h2]
        omega
      · rw [if_neg h2]
        simp [h2]
        omega
  constructor
  · intro ps items charges pays s hs
    unfold build_settle_summary at hs
    by_cases hps : ps = []
    · rw [if_pos hps] at hs
      simp at hs
    · rw [if_neg hps] at hs
      obtain ⟨p, hp, rfl⟩ := List.mem_map.mp hs
      exact hrow p.user_id _ _
  · intro base entries s hs
    unfold overlay_summary at hs
    obtain ⟨s0, hmem, rfl⟩ := List.mem_map.mp hs
    exact hover (settled_by_debtor entries) s0

/-- A 1000-cent obligation of "b" with 400 cents settled. -/
def exEntry400 : LedgerEntry :=
  { id := "e4", receipt_id := .str "r4", debtor_id := "b", creditor_id := "a",
    amount_cents := 1000, settled_amount_cents := 400, status := "partially_settled" }

/-- C10 witness: the mutation-path mapping applied to a creditor row (alice
paid 50 with no liability), and the overlay mapping applied to the debtor row
of a receipt with 400 of 1000 cents settled. -/
theorem C10_settle_summary_status_mapping_witness :
    (((summary_row "alice" 0 50).status = "creditor" ↔
        (summary_row "alice" 0 50).net_cents < 0) ∧
      ((summary_row "alice" 0 50).status = "settled" ↔
        (summary_row "alice" 0 50).net_cents = 0) ∧
      ((summary_row "alice" 0 50).status = "pending" ↔
        0 < (summary_row "alice" 0 50).net_cents)) ∧
    (((overlay_row (settled_by_debtor [exEntry400]) (summary_row "b" 1000 0)).status
          = "settled" ↔
        ((overlay_row (settled_by_debtor [exEntry400]) (summary_row "b" 1000 0)).amount_cents
            ≤ (overlay_row (settled_by_debtor [exEntry400])
                (summary_row "b" 1000 0)).settled_amount_cents ∧
          0 < (overlay_row (settled_by_debtor [exEntry400])
                (summary_row "b" 1000 0)).amount_cents)) ∧
      ((overlay_row (settled_by_debtor [exEntry400]) (summary_row "b" 1000 0)).status
          = "partially_settled" ↔
        (¬ ((overlay_row (settled_by_debtor [exEntry400])
              (summary_row "b" 1000 0)).amount_cents
            ≤ (overlay_row (settled_by_debtor [exEntry400])
                (summary_row "b" 1000 0)).settled_amount_cents ∧
          0 < (overlay_row (settled_by_debtor [exEntry400])
                (summary_row "b" 1000 0)).amount_cents) ∧
          0 < (overlay_row (settled_by_debtor [exEntry400])
                (summary_row "b" 1000 0)).settled_amount_cents)) ∧
      ((overlay_row (settled_by_debtor [exEntry400]) (summary_row "b" 1000 0)).status
          = "pending" ↔
        (¬ ((overlay_row (settled_by_debtor [exEntry400])
              (summary_row "b" 1000 0)).amount_cents
            ≤ (overlay_row (settled_by_debtor [exEntry400])
                (summary_row "b" 1000 0)).settled_amount_cents ∧
          0 < (overlay_row (settled_by_debtor [exEntry400])
                (summary_row "b" 1000 0)).amount_cents) ∧
          ¬ 0 < (overlay_row (settled_by_debtor [exEntry400])
                (summary_row "b" 1000 0)).settled_amount_cents))) :=
  ⟨C10_settle_summary_status_mapping.1 [{ user_id := "alice", role := "owner" }] [] []
      [{ user_id := "alice", amount_paid_cents := 50 }] (summary_row "alice" 0 50)
      (by decide),
    C10_settle_summary_status_mapping.2 [summary_row "b" 1000 0] [exEntry400]
      (overlay_row (settled_by_debtor [exEntry400]) (summary_row "b" 1000 0)) (by decide)⟩

/-- C10 counterexample: a scenario-4 style receipt (2000-cent unsplit charge,
"a" paid everything, "b" owes 1000 of which 400 is settled). After the
settlement event the reconciliation relabels the creditor "a"
(`net_cents = -1000 < 0`) as `"pending"`, not `"creditor"` as claimed. -/
theorem C10_settle_summary_status_counterexample :
    (overlay_summary
        (build_settle_summary
          [{ user_id := "a", role := "owner" }, { user_id := "b" }] []
          [{ name := "dinner", unit_price_cents := 2000 }]
          [{ user_id := "a", amount_paid_cents := 2000 }])
        [exEntry400]).map (fun s => (s.user_id, s.net_cents, s.status))
      = [("a", -1000, "pending"), ("b", 1000, "partially_settled")] := by
  decide

/-! ## Claim C4 — version increments -/

/-- C4 (amended). Of the receipt mutations, only `update_receipt` and
`unfinalize_receipt` increment `version` by exactly 1; an accepted
`add_member`, `remove_member`, `finalize_receipt` or `soft_delete_receipt`
writes a document whose `version` equals the version of the document it
replaces — contradicting the original claim that EVERY accepted mutation
increments the version. -/
theorem C4_version_increment_behavior :
    (∀ (st : DBState) (rid uid : String) (u : ReceiptUpdatePayload)
        (st' : DBState) (r' : Receipt),
      update_receipt st rid uid u = (st', .ok (some r')) →
        r'.version = u.version + 1) ∧
    (∀ (st : DBState) (rid uid : String) (st' : DBState) (r' r : Receipt),
      unfinalize_receipt st rid uid = (st', .ok (some r')) →
        find_owned_receipt st rid uid = some r → r'.version = r.version + 1) ∧
    (∀ (st : DBState) (rid uid : String) (st' : DBState) (r' : Receipt),
      add_member st rid uid = (st', some r') →
        ∃ r, find_receipt st rid = some r ∧ r'.version = r.version) ∧
    (∀ (st : DBState) (rid uid : String) (st' : DBState) (r' : Receipt),
      remove_member st rid uid = (st', .ok (some r')) →
        ∃ r, find_receipt st rid = some r ∧ r'.version = r.version) ∧
    (∀ (st : DBState) (rid : String) (st' : DBState) (r' : Receipt)
        (es : List LedgerEntry),
      finalize_receipt st rid = (st', .ok (r', es)) →
        ∃ r, find_receipt st rid = some r ∧ r'.version = r.version) ∧
    (∀ (st : DBState) (rid uid : String) (st' : DBState),
      soft_delete_receipt st rid uid = (st', true) →
        ∃ r, find_owned_receipt st rid uid = some r ∧
          st' = put_receipt st { r with is_deleted := true } ∧
          ({ r with is_deleted := true } : Receipt).version = r.version) := by
  refine ⟨?_, ?_, ?_, ?_, ?_, ?_⟩
  · intro st rid uid u st' r' h
    unfold update_receipt at h
    cases hfind : find_owned_receipt st rid uid with
    | none =>
      simp only [hfind] at h
      simp [Prod.ext_iff] at h
    | some existing =>
      simp only [hfind] at h
      by_cases h1 : existing.status ≠ "draft"
      · rw [if_pos h1] at h
        simp [Prod.ext_iff] at h
      · rw [if_neg h1] at h
        by_cases h2 : existing.version ≠ u.version
        · rw [if_pos h2] at h
          simp [Prod.ext_iff] at h
        · rw [if_neg h2] at h
          cases hv1 : (match u.items with
              | some items => validate_items items
              | none => Except.ok ()) with
          | error e =>
            simp only [hv1] at h
            simp [Prod.ext_iff] at h
          | ok _ =>
            simp only [hv1] at h
            cases hv2 : (match u.payments with
                | some ps2 => validate_payments ps2
                | none => Except.ok ()) with
            | error e =>
              simp only [hv2] at h
              simp [Prod.ext_iff] at h
            | ok _ =>
              simp only [hv2] at h
              cases hv3 : (match u.charges with
                  | some cs2 => validate_charges cs2
                  | none => Except.ok ()) with
              | error e =>
                simp only [hv3] at h
                simp [Prod.ext_iff] at h
              | ok _ =>
                simp only [hv3] at h
                simp only [Prod.ext_iff, Except.ok.injEq, Option.some.injEq] at h
                have hver : ¬ existing.version ≠ u.version := h2
                rw [← h.2]
                simp only []
                omega
  · intro st rid uid st' r' r h hfind
    unfold unfinalize_receipt at h
    simp only [hfind] at h
    by_cases h1 : r.status ≠ "finalized"
    · rw [if_pos h1] at h
      simp [Prod.ext_iff] at h
    · rw [if_neg h1] at h
      simp only [Prod.ext_iff, Except.ok.injEq, Option.some.injEq] at h
      rw [← h.2]
  · intro st rid uid st' r' h
    unfold add_member at h
    cases hfind : find_receipt st rid with
    | none =>
      simp only [hfind] at h
      simp [Prod.ext_iff] at h
    | some receipt =>
      simp only [hfind] at h
      by_cases h1 : receipt.participants.any (fun p => p.user_id = uid)
      · rw [if_pos h1] at h
        simp [Prod.ext_iff] at h
      · rw [if_neg h1] at h
        simp only [Prod.ext_iff, Option.some.injEq] at h
        exact ⟨receipt, rfl, by rw [← h.2]⟩
  · intro st rid uid st' r' h
    unfold remove_member at h
    cases hfind : find_receipt st rid with
    | none =>
      simp only [hfind] at h
      simp [Prod.ext_iff] at h
    | some receipt =>
      simp only [hfind] at h
      by_cases h1 : receipt.items.any (fun item => item.splits.any (fun s => s.user_id = uid))
      · rw [if_pos h1] at h
        simp [Prod.ext_iff] at h
      · rw [if_neg h1] at h
        by_cases h2 : receipt.payments.any (fun p => p.user_id = uid)
        · rw [if_pos h2] at h
          simp [Prod.ext_iff] at h
        · rw [if_neg h2] at h
          simp only [Prod.ext_iff, Except.ok.injEq, Option.some.injEq] at h
          exact ⟨receipt, rfl, by rw [← h.2]⟩
  · intro st rid st' r' es h
    unfold finalize_receipt at h
    cases hfind : find_receipt st rid with
    | none =>
      simp only [hfind] at h
      simp [Prod.ext_iff] at h
    | some receipt =>
      simp only [hfind] at h
      by_cases h1 : receipt.status ≠ "draft"
      · rw [if_pos h1] at h
        simp [Prod.ext_iff] at h
      · rw [if_neg h1] at h
        by_cases h2 : sum_payments receipt ≠ receipt.total_cents
        · rw [if_pos h2] at h
          simp [Prod.ext_iff] at h
        · rw [if_neg h2] at h
          cases hins : insert_ledger_entries { receipt with status := "finalized" } with
          | error e =>
            simp only [hins] at h
            simp [Prod.ext_iff] at h
          | ok new_entries =>
            simp only [hins] at h
            simp only [Prod.ext_iff, Except.ok.injEq, Prod.mk.injEq] at h
            exact ⟨receipt, rfl, by rw [← h.2.1]⟩
  · intro st rid uid st' h
    unfold soft_delete_receipt at h
    cases hfind : find_owned_receipt st rid uid with
    | none =>
      simp only [hfind] at h
      simp [Prod.ext_iff] at h
    | some receipt =>
      simp only [hfind] at h
      simp only [Prod.ext_iff] at h
      exact ⟨receipt, rfl, h.1.symm, rfl⟩

/-- The empty draft receipt owned by alice, as `create_receipt` produces it. -/
def exReceiptDraft : Receipt :=
  { id := "r1", owner_id := "alice", title := "t",
    participants := [{ user_id := "alice", role := "owner" }] }

def exStateC4 : DBState := { receipts := [exReceiptDraft], entries := [] }

def exPatchC4 : ReceiptUpdatePayload := { title := some "t2", version := 1 }

def exUpdatedC4 : Receipt := { exReceiptDraft with title := "t2", version := 2 }

def exAddedC4 : Receipt :=
  { exReceiptDraft with participants :=
      exReceiptDraft.participants ++ [{ user_id := "bob", role := "member" }] }

/-- C4 witness: an accepted title-only update of `exReceiptDraft` bumps the
version from 1 to 2, and an accepted `add_member` writes a document with the
found receipt's version. -/
theorem C4_version_increment_behavior_witness :
    exUpdatedC4.version = exPatchC4.version + 1 ∧
      ∃ r, find_receipt exStateC4 "r1" = some r ∧ exAddedC4.version = r.version :=
  ⟨C4_version_increment_behavior.1 exStateC4 "r1" "alice" exPatchC4
      (put_receipt exStateC4 exUpdatedC4) exUpdatedC4 rfl,
    C4_version_increment_behavior.2.2.1 exStateC4 "r1" "bob"
      (put_receipt exStateC4 exAddedC4) exAddedC4 rfl⟩

/-- C4 counterexample: `add_member` accepts (returns the updated receipt) yet
leaves `version` at 1, refuting "every accepted mutation increments the
version by exactly 1". -/
theorem C4_version_increment_counterexample :
    (add_member exStateC4 "r1" "bob").2 = some exAddedC4 ∧
      exAddedC4.version = 1 ∧ exReceiptDraft.version = 1 :=
  ⟨rfl, rfl, rfl⟩

/-! ## Claim C2 — finalize atomicity (code bug) -/

/-- An empty draft receipt exactly as `create_receipt` stores it:
no items, no payments, `total_cents = 0`. Its payments sum (0) equals its
total (0), so `finalize_receipt`'s own validation passes. -/
def exReceiptC2 : Receipt :=
  { id := "r2", owner_id := "alice", title := "empty",
    participants := [{ user_id := "alice", role := "owner" }] }

def exStateC2 : DBState := { receipts := [exReceiptC2], entries := [] }

/-- C2 (code bug, evaluated at the failing input): finalizing the empty draft
flips the stored status to "finalized" FIRST; `insert_ledger_entries` then
raises (total must be positive) and the error propagates — leaving the
receipt finalized with no ledger entries, an outcome the claim forbids. -/
theorem C2_finalize_not_atomic_at_failing_input :
    (finalize_receipt exStateC2 "r2").2
        = .error (.validation "Receipt total must be positive to finalize") ∧
      (find_receipt (finalize_receipt exStateC2 "r2").1 "r2").map Receipt.status
        = some "finalized" ∧
      (finalize_receipt exStateC2 "r2").1.entries = [] :=
  ⟨rfl, rfl, rfl⟩

/-! ## Claim C3 — the ledger liability calculation reads a missing attribute -/

/-- C3 (amended). For every receipt with at least one item, positive
`subtotal_cents` AND a non-zero total split quantity, `insert_ledger_entries`
raises before inserting anything: if the status/total guards do not reject it
first, `_calculate_user_liabilities` reaches `receipt.tax_cents` — an
attribute the `Receipt` model does not define — and raises `AttributeError`.
The original claim omitted the split-quantity condition; without it the item
loop is skipped and no exception occurs (see the counterexample). -/
theorem C3_insert_ledger_raises (r : Receipt)
    (hitems : r.items ≠ []) (hsub : 0 < r.subtotal_cents)
    (hsplit : total_split_qty r.items ≠ 0) :
    (∃ err, insert_ledger_entries r = .error err) ∧
      (r.status = "finalized" → 0 < r.total_cents →
        insert_ledger_entries r = .error (.attributeMissing "tax_cents")) := by
  have hliab : calculate_user_liabilities r = .error (.attributeMissing "tax_cents") := by
    unfold calculate_user_liabilities
    rw [if_neg (by simp [hitems]; omega), if_neg hsplit]
  constructor
  · by_cases h1 : r.status ≠ "finalized"
    · exact ⟨_, by unfold insert_ledger_entries; rw [if_pos h1]⟩
    · by_cases h2 : r.total_cents ≤ 0
      · refine ⟨.validation "Receipt total must be positive to finalize", ?_⟩
        unfold insert_ledger_entries
        rw [if_neg h1, if_pos h2]
      · refine ⟨.attributeMissing "tax_cents", ?_⟩
        unfold insert_ledger_entries
        rw [if_neg h1, if_neg h2]
        simp only [hliab]
  · intro hst htot
    unfold insert_ledger_entries
    rw [if_neg (by simp [hst]), if_neg (by omega)]
    simp only [hliab]

/-- A finalized scenario-1 receipt: one 2000-cent item split between the two
participants, paid in full by alice. -/
def exReceiptC3 : Receipt :=
  { id := "r3", owner_id := "alice", title := "pizza", status := "finalized",
    participants := [{ user_id := "alice", role := "owner" }, { user_id := "bob" }],
    items := [{ name := "pizza", unit_price_cents := 2000, quantity := 1,
                splits := [⟨"alice", 1⟩, ⟨"bob", 1⟩] }],
    payments := [{ user_id := "alice", amount_paid_cents := 2000 }],
    subtotal_cents := 2000, total_cents := 2000 }

/-- C3 witness: the spec's own scenario-1 receipt triggers the
`AttributeError` and can never produce ledger entries. -/
theorem C3_insert_ledger_raises_witness :
    (∃ err, insert_ledger_entries exReceiptC3 = .error err) ∧
      (exReceiptC3.status = "finalized" → 0 < exReceiptC3.total_cents →
        insert_ledger_entries exReceiptC3 = .error (.attributeMissing "tax_cents")) :=
  C3_insert_ledger_raises exReceiptC3 (by simp [exReceiptC3]) (by decide)
    (by simp [exReceiptC3, total_split_qty])

/-- The same receipt but with the item left unassigned (empty splits). -/
def exReceiptC3b : Receipt :=
  { id := "r3b", owner_id := "alice", title := "pizza", status := "finalized",
    participants := [{ user_id := "alice", role := "owner" }, { user_id := "bob" }],
    items := [{ name := "pizza", unit_price_cents := 100, quantity := 1, splits := [] }],
    payments := [{ user_id := "alice", amount_paid_cents := 100 }],
    subtotal_cents := 100, total_cents := 100 }

/-- C3 counterexample: a finalized receipt with one item and positive
subtotal whose item has NO splits — `insert_ledger_entries` succeeds (with no
entries), so the claim's "raises for every receipt with at least one item and
positive subtotal" is false as stated. -/
theorem C3_insert_ledger_counterexample :
    exReceiptC3b.items ≠ [] ∧ 0 < exReceiptC3b.subtotal_cents ∧
      insert_ledger_entries exReceiptC3b = .ok [] := by
  refine ⟨by simp [exReceiptC3b], by decide, ?_⟩
  simp [insert_ledger_entries, exReceiptC3b, calculate_user_liabilities, total_split_qty,
    init_liabilities, dset, get_user_payments, payments_by_user, dadd, dget_nil, dget_cons,
    calculate_net_positions, match_debtors_creditors, match_loop]

/-! ## Claim C8 — unfinalize ignores settlement progress (code bug) -/

/-- A finalized receipt whose ledger entry has 400 cents settled. -/
def exReceiptC8 : Receipt :=
  { id := "r8", owner_id := "alice", title := "dinner", status := "finalized",
    participants := [{ user_id := "alice", role := "owner" }, { user_id := "bob" }],
    total_cents := 0 }

def exEntryC8 : LedgerEntry :=
  { id := "e8", receipt_id := .str "r8", debtor_id := "bob", creditor_id := "alice",
    amount_cents := 1000, settled_amount_cents := 400, status := "partially_settled" }

def exStateC8 : DBState := { receipts := [exReceiptC8], entries := [exEntryC8] }

/-- C8 (code bug, evaluated at the failing input): with a 400-cent partial
settlement on record, `unfinalize_receipt` succeeds anyway — no
`AlreadySettled` check exists — returning the receipt to draft with version
incremented; and its bulk soft-delete touches no entry because the Mongo
filter compares `ObjectId(receipt_id)` against the stored string, so the
settled entry survives undeleted. -/
theorem C8_unfinalize_ignores_settlement_at_failing_input :
    exEntryC8.settled_amount_cents = 400 ∧
      (unfinalize_receipt exStateC8 "r8" "alice").2
        = .ok (some { exReceiptC8 with status := "draft", version := 2 }) ∧
      (unfinalize_receipt exStateC8 "r8" "alice").1.entries = [exEntryC8] ∧
      exEntryC8.is_deleted = false :=
  ⟨rfl, rfl, rfl, rfl⟩

end Kvitta
